import Mathlib

/-!
Verification development for the media-sort filesystem sorter
(`sort/fs_sort.go`).  The Go source is shallowly embedded: pure string
manipulation from the standard library (`filepath.Ext`, `filepath.Base`,
`filepath.Dir`, `filepath.Join`, `strings.TrimSuffix`, `strings.Split`)
is reimplemented as Lean functions; the stateful scanner / placer /
control loop become explicit state-passing functions returning
`Except String _`; filesystem and collaborator calls (`os.Stat`,
`os.MkdirAll`, `os.Rename`, the external resolver `Sort` and the path
formatter `PrettyPath`) are mediated by a `World` oracle record, and
mutating calls are additionally recorded in an `Effect` trace; the
bounded-concurrency dispatch of `sortAllFiles` is modelled both
sequentially (for the per-candidate result/log bookkeeping) and as a
small-step transition system (for the concurrency-ceiling invariant).
-/

namespace MediaSort

/-- Decidable equality for `Except` values, used to evaluate the model
on concrete inputs. -/
instance {ε α : Type} [DecidableEq ε] [DecidableEq α] : DecidableEq (Except ε α)
  | .ok a, .ok b =>
    if h : a = b then isTrue (by rw [h]) else isFalse (by intro hh; cases hh; exact h rfl)
  | .error a, .error b =>
    if h : a = b then isTrue (by rw [h]) else isFalse (by intro hh; cases hh; exact h rfl)
  | .ok _, .error _ => isFalse (by intro hh; cases hh)
  | .error _, .ok _ => isFalse (by intro hh; cases hh)

/-- Characters of a string, reversed. -/
def revChars (s : String) : List Char := s.toList.reverse

/-- Helper for `filepathExt`: scans the reversed character list of a path,
accumulating the characters of the candidate extension. -/
def extGo : List Char → List Char → String
  | [], _ => ""
  | c :: rest, acc =>
    if c = '/' then ""
    else if c = '.' then String.mk ('.' :: acc)
    else extGo rest (c :: acc)

/-- Embedding of Go `filepath.Ext`: the suffix beginning at the final dot
in the final slash-separated element of the path; empty when there is no
dot. -/
def filepathExt (p : String) : String := extGo (revChars p) []

/-- Embedding of Go `filepath.Base`: the last element of the path after
trailing slashes are removed; "." for the empty path, "/" for a path of
slashes only. -/
def filepathBase (p : String) : String :=
  let cs := (revChars p).dropWhile (fun c => c = '/')
  let base := (cs.takeWhile (fun c => c ≠ '/')).reverse
  if base.isEmpty then (if p = "" then "." else "/") else String.mk base

/-- Embedding of Go `filepath.Dir`: everything before the final
slash-separated element ("." when there is no slash).  `filepath.Clean`
normalisation is not modelled; no claim depends on it. -/
def filepathDir (p : String) : String :=
  let rest := (revChars p).dropWhile (fun c => c ≠ '/')
  if rest.isEmpty then "."
  else
    let rest2 := rest.dropWhile (fun c => c = '/')
    if rest2.isEmpty then "/" else String.mk rest2.reverse

/-- Embedding of Go `filepath.Join` on two elements (empty elements are
dropped, as in Go; `filepath.Clean` normalisation is not modelled). -/
def filepathJoin (a b : String) : String :=
  if a = "" then b else if b = "" then a else a ++ "/" ++ b

/-- Embedding of Go `strings.HasPrefix` (computed on character lists so
that it reduces by evaluation). -/
def hasPrefixStr (s pre : String) : Bool := pre.toList.isPrefixOf s.toList

/-- Embedding of Go `strings.TrimSuffix` (computed on character
lists). -/
def trimSuffix (s suffix : String) : String :=
  if (revChars suffix).isPrefixOf (revChars s)
  then String.mk (((revChars s).drop suffix.toList.length).reverse)
  else s

/-- Helper for `splitComma`: accumulates the current field (reversed)
while scanning. -/
def splitCommaGo : List Char → List Char → List String
  | [], acc => [String.mk acc.reverse]
  | c :: rest, acc =>
    if c = ',' then String.mk acc.reverse :: splitCommaGo rest []
    else splitCommaGo rest (c :: acc)

/-- Embedding of Go `strings.Split(s, ",")`. -/
def splitComma (s : String) : List String := splitCommaGo s.toList []

/-- Embedding of the `Config` struct of `fs_sort.go` (the embedded
`PathConfig` and the `WatchDelay` duration are consumed only by external
collaborators / real-time sleeping and are not part of the model). -/
structure Config where
  targets : List String
  tvDir : String
  movieDir : String
  extensions : String
  concurrency : Int
  fileLimit : Int
  recursive : Bool
  dryRun : Bool
  skipHidden : Bool
  overwrite : Bool
  overwriteIfLarger : Bool
  watch : Bool
deriving DecidableEq

/-- Embedding of the `fileSort` candidate struct.  Of the
`os.FileInfo` snapshot the code only ever reads `Size()` after
discovery, so the snapshot is kept as the size; the declared
`result`/`err` fields of the Go struct are never assigned anywhere in
the source and are omitted. -/
structure fileSort where
  id : Nat
  path : String
  size : Int
deriving DecidableEq

/-- Mutable state of the `fsSort` struct: the candidate map `sorts`
(as an insertion-ordered association list, mirroring Go map assignment),
the directory set `dirs`, and the `stats` counters. -/
structure fsSortState where
  sorts : List (String × fileSort)
  dirs : List String
  statsFound : Nat
  statsMatched : Nat
  statsMoved : Nat
deriving DecidableEq

/-- Fresh `fsSort` state. -/
def initState : fsSortState := ⟨[], [], 0, 0, 0⟩

mutual

/-- Filesystem node as seen by the scanner: a regular file with its
size, a directory with named entries, or any other kind of entry
(symlink, pipe, device, ...). -/
inductive FSNode where
  | file (size : Int) : FSNode
  | dir (entries : FSEntries) : FSNode
  | other : FSNode
deriving DecidableEq

/-- Named directory entries (a list, kept mutually inductive with
`FSNode` so that structural recursion over trees is direct). -/
inductive FSEntries where
  | nil : FSEntries
  | cons (name : String) (node : FSNode) (rest : FSEntries) : FSEntries
deriving DecidableEq

end

/-- Embedding of the `validExts` map construction in `FileSystemSort`:
split the configured extension list on commas and prefix each entry
with a dot. -/
def validExts (c : Config) : List String :=
  (splitComma c.extensions).map (fun e => "." ++ e)

/-- Go map assignment `fs.sorts[path] = v`: replace the binding in place
when the key is present, append otherwise. -/
def sortsInsert : List (String × fileSort) → String → fileSort → List (String × fileSort)
  | [], k, v => [(k, v)]
  | (k', v') :: rest, k, v =>
    if k' = k then (k, v) :: rest else (k', v') :: sortsInsert rest k v

/-- Membership of a key in the candidate map. -/
def hasKey (m : List (String × fileSort)) (k : String) : Bool :=
  m.any (fun kv => kv.1 = k)

/-- Go map assignment `fs.dirs[path] = true`. -/
def dirsInsert (dirs : List String) (path : String) : List String :=
  if dirs.contains path then dirs else dirs ++ [path]

mutual

/-- Embedding of `(*fsSort).add`.  `name` is `info.Name()`; for a
directory the listing itself is total in the model (a `ReadDir` failure
is a fatal scan error in the source, but no claim depends on it). -/
def add (cfg : Config) (st : fsSortState) (path name : String) (node : FSNode) :
    Except String fsSortState :=
  if cfg.skipHidden && hasPrefixStr name "." then .ok st
  else if cfg.fileLimit ≤ (st.sorts.length : Int) then .ok st
  else
    match node with
    | .file size =>
      let st1 : fsSortState := { st with statsFound := st.statsFound + 1 }
      if (validExts cfg).contains (filepathExt path) then
        .ok { st1 with
              sorts := sortsInsert st1.sorts path ⟨st1.sorts.length + 1, path, size⟩,
              statsMatched := st1.statsMatched + 1 }
      else .ok st1
    | .dir entries =>
      if !cfg.recursive then
        .error "Recursive mode (-r) is required to sort directories"
      else
        let st1 : fsSortState := { st with dirs := dirsInsert st.dirs path }
        addEntries cfg st1 path entries
    | .other => .ok st

/-- Loop body of the directory case of `(*fsSort).add`: the iteration
over the `ReadDir` results, joining each entry name onto the directory
path and recursing. -/
def addEntries (cfg : Config) (st : fsSortState) (path : String) :
    FSEntries → Except String fsSortState
  | .nil => .ok st
  | .cons name child rest =>
    match add cfg st (filepathJoin path name) name child with
    | .error e => .error e
    | .ok st' => addEntries cfg st' path rest

end

/-- Embedding of the resolver's `Result` value as consumed by
`sortFile`: the canonical source path and the media-type string.  Other
fields are consumed only by the external path formatter. -/
structure Result where
  path : String
  mtype : String
deriving DecidableEq

/-- External `mediasearch.Series` constant (a string-typed media type;
its concrete value is opaque to this file, only its identity matters). -/
def mediasearchSeries : String := "series"

/-- External `mediasearch.Movie` constant. -/
def mediasearchMovie : String := "movie"

/-- Oracle record for every external call the sorter makes: `os.Stat`
on scan targets (yielding the node or the OS error), the external
resolver `Sort`, the external formatter `(*Result).PrettyPath`,
`os.Stat` on placer paths (yielding the size when the file exists),
and the possible failures of `os.MkdirAll`, `os.Rename` and the
fsnotify watcher setup.  The oracle is a per-call snapshot of the
environment; real filesystem evolution between calls is out of scope. -/
structure World where
  stat : String → Except String FSNode
  resolve : String → Except String Result
  prettyPath : Result → Except String String
  statSize : String → Option Int
  mkdirErr : String → Option String
  renameErr : String → String → Option String
  watcherErr : Option String

/-- Filesystem mutations attempted by the placer, in call order. -/
inductive Effect where
  | mkdirAll (dir : String) : Effect
  | rename (src dst : String) : Effect
deriving DecidableEq

/-- Base-directory selection switch of `sortFile` (lines 229-236):
`Series` maps to the TV directory, `Movie` to the movie directory, any
other media type is an error (`none`). -/
def baseDirOf (cfg : Config) (mtype : String) : Option String :=
  if mtype = mediasearchSeries then some cfg.tvDir
  else if mtype = mediasearchMovie then some cfg.movieDir
  else none

/-- Collision policy of `sortFile` (lines 248-258): when no file exists
at the destination the move proceeds; otherwise
`newIsLarger := newInfo.Size() > file.info.Size()` (the size of the
file already at the destination compared against the candidate
snapshot) and the move proceeds iff `Overwrite` is set, or
`OverwriteIfLarger` is set and `newIsLarger` holds. -/
def overwriteOK (cfg : Config) (fileSize : Int) (existing : Option Int) : Bool :=
  match existing with
  | none => true
  | some existingSize =>
    let newIsLarger : Bool := decide (existingSize > fileSize)
    let ow := cfg.overwrite
    if !ow && (cfg.overwriteIfLarger && newIsLarger) then true else ow

/-- Companion-subtitle path of a media path: the path with its
extension trimmed and `.srt` appended (lines 270 and 272). -/
def subsOf (p : String) : String := trimSuffix p (filepathExt p) ++ ".srt"

/-- Embedding of `(*fsSort).sortFile`: resolve, format, pick the base
directory, then (unless dry-run or already sorted) apply the collision
policy, create the destination directory, move the file and best-effort
move the companion subtitle.  The second component records the
filesystem-mutating calls issued, in order. -/
def sortFile (cfg : Config) (w : World) (file : fileSort) :
    Except String Unit × List Effect :=
  match w.resolve file.path with
  | .error e => (.error e, [])
  | .ok result =>
    match w.prettyPath result with
    | .error e => (.error e, [])
    | .ok rel =>
      match baseDirOf cfg result.mtype with
      | none => (.error ("Invalid result type: " ++ result.mtype), [])
      | some baseDir =>
        let newPath := filepathJoin baseDir rel
        if cfg.dryRun then (.ok (), [])
        else if result.path = newPath then (.ok (), [])
        else if !(overwriteOK cfg file.size (w.statSize newPath)) then
          (.error ("File already exists '" ++ newPath ++ "' (try setting --overwrite)"), [])
        else
          match w.mkdirErr (filepathDir newPath) with
          | some e => (.error e, [Effect.mkdirAll (filepathDir newPath)])
          | none =>
            match w.renameErr result.path newPath with
            | some e =>
              (.error e,
               [Effect.mkdirAll (filepathDir newPath), Effect.rename result.path newPath])
            | none =>
              match w.statSize (subsOf result.path) with
              | some _ =>
                (.ok (),
                 [Effect.mkdirAll (filepathDir newPath), Effect.rename result.path newPath,
                  Effect.rename (subsOf result.path) (subsOf newPath)])
              | none =>
                (.ok (),
                 [Effect.mkdirAll (filepathDir newPath), Effect.rename result.path newPath])

/-- One failure log line of `sortAllFiles`: the candidate id, the total
candidate count, the candidate path and the error text. -/
structure LogEntry where
  id : Nat
  total : Nat
  path : String
  errText : String
deriving DecidableEq

/-- Sequentialisation of the dispatch loop of `sortAllFiles`: run
`sortFile` for every candidate (in map order), turning each failure
into a `LogEntry` and concatenating the effect traces.  Completion
order of the real goroutines is unspecified; the concurrency ceiling
itself is modelled separately by `DStep`/`DReach`. -/
def runSorts (cfg : Config) (w : World) (total : Nat) :
    List (String × fileSort) → List LogEntry × List Effect
  | [] => ([], [])
  | (_, file) :: rest =>
    let r := sortFile cfg w file
    let rest' := runSorts cfg w total rest
    match r.1 with
    | .error e => (⟨file.id, total, file.path, e⟩ :: rest'.1, r.2 ++ rest'.2)
    | .ok _ => (rest'.1, r.2 ++ rest'.2)

/-- Embedding of `(*fsSort).sortAllFiles`: every candidate is
dispatched, every per-candidate error is converted into a log line, and
the call itself unconditionally returns success (`return nil`). -/
def sortAllFiles (cfg : Config) (w : World) (st : fsSortState) :
    Except String Unit × (List LogEntry × List Effect) :=
  (.ok (), runSorts cfg w st.sorts.length st.sorts)

/-- Embedding of the target loop of `(*fsSort).scan`: `os.Stat` each
target (a stat failure aborts the pass with the OS error) and feed it
to `add`. -/
def scanTargets (cfg : Config) (w : World) (st : fsSortState) :
    List String → Except String fsSortState
  | [] => .ok st
  | path :: rest =>
    match w.stat path with
    | .error e => .error e
    | .ok node =>
      match add cfg st path (filepathBase path) node with
      | .error e => .error e
      | .ok st' => scanTargets cfg w st' rest

/-- Embedding of `(*fsSort).scan`: traverse all targets, then fail with
the "No sortable files found" error when no candidate was produced and
the run is not about to watch at least one directory. -/
def scan (cfg : Config) (w : World) (st : fsSortState) : Except String fsSortState :=
  match scanTargets cfg w st cfg.targets with
  | .error e => .error e
  | .ok st' =>
    if st'.sorts.isEmpty && (!cfg.watch || st'.dirs.isEmpty) then
      .error ("No sortable files found (" ++ toString st'.statsFound ++ " files checked)")
    else .ok st'

/-- The per-pass state reset at the top of the sort loop of
`FileSystemSort` (lines 83-85): the candidate map and the directory set
are replaced by fresh empty maps; nothing else is touched. -/
def resetPass (st : fsSortState) : fsSortState := { st with sorts := [], dirs := [] }

/-- Embedding of `(*fsSort).watch`: an empty directory set is an error;
watcher construction/subscription failure (abstracted by the oracle) is
an error; otherwise the call blocks until an event or watcher error
arrives and returns control (the debounce sleep is real time, out of
scope). -/
def watchStep (w : World) (st : fsSortState) : Except String Unit :=
  if st.dirs.isEmpty then .error "No directories to watch"
  else
    match w.watcherErr with
    | some e => .error e
    | none => .ok ()

/-- Embedding of the sort loop of `FileSystemSort` (lines 82-105),
indexed by the number of remaining passes (the real loop re-enters
whenever watch mode observes a change; a run that would keep watching
past the supplied pass budget is cut off as a vacuous success).  The
second component accumulates the placer's filesystem mutations. -/
def sortLoop (cfg : Config) (w : World) (st : fsSortState) :
    Nat → Except String Unit × List Effect
  | 0 => (.ok (), [])
  | fuel + 1 =>
    let st1 := resetPass st
    match scan cfg w st1 with
    | .error e => (.error e, [])
    | .ok st2 =>
      if cfg.watch && st2.dirs.isEmpty then (.error "No directories to watch", [])
      else
        match sortAllFiles cfg w st2 with
        | (.error e, out) => (.error e, out.2)
        | (.ok _, out) =>
          if !cfg.watch then (.ok (), out.2)
          else
            match watchStep w st2 with
            | .error e => (.error e, out.2)
            | .ok _ =>
              match sortLoop cfg w st2 fuel with
              | (r2, effs2) => (r2, out.2 ++ effs2)

/-- The base-directory defaulting at the top of `FileSystemSort`
(lines 61-66): an empty movie or TV directory becomes ".". -/
def defaultDirs (c : Config) : Config :=
  { c with movieDir := if c.movieDir = "" then "." else c.movieDir,
           tvDir := if c.tvDir = "" then "." else c.tvDir }

/-- Embedding of `FileSystemSort`: default the base directories, reject
contradictory configurations, then run the sort loop from a fresh
state. -/
def FileSystemSort (c : Config) (w : World) (fuel : Nat) :
    Except String Unit × List Effect :=
  if (defaultDirs c).watch && !(defaultDirs c).recursive then
    (.error "Recursive mode is required to watch directories", [])
  else if (defaultDirs c).overwrite && (defaultDirs c).overwriteIfLarger then
    (.error "Overwrite is already specified, overwrite-if-larger is redundant", [])
  else
    sortLoop (defaultDirs c) w initState fuel

/-- Scheduler state of the dispatch phase of `sortAllFiles`
(lines 134-148): `pending` candidates not yet reached by the spawning
loop, `tokens` values currently buffered in the capacity-`cap` channel
`queue`, `running` goroutines that hold an admission slot (spawned,
work not yet followed by `<-queue`), `draining` goroutines past
`<-queue` but before `wg.Done()`, the `wg` WaitGroup counter, and
`finished` fully completed goroutines. -/
structure DispatchState where
  pending : Nat
  tokens : Nat
  running : Nat
  draining : Nat
  wg : Nat
  finished : Nat
deriving DecidableEq

/-- Initial scheduler state for `total` candidates. -/
def dispatchInit (total : Nat) : DispatchState := ⟨total, 0, 0, 0, 0, 0⟩

/-- Small-step transitions of the dispatch scheduler with channel
capacity `cap`: the main goroutine spawns the next candidate
(`wg.Add(1)`, `queue <- true` — enabled only while the channel has
room — then `go sortFile(file)`); a worker completes its work and
releases its slot (`<-queue`); a worker signals completion
(`wg.Done()`). -/
inductive DStep (cap : Nat) : DispatchState → DispatchState → Prop where
  | spawn {s : DispatchState} : 0 < s.pending → s.tokens < cap →
      DStep cap s ⟨s.pending - 1, s.tokens + 1, s.running + 1, s.draining, s.wg + 1, s.finished⟩
  | release {s : DispatchState} : 0 < s.running →
      DStep cap s ⟨s.pending, s.tokens - 1, s.running - 1, s.draining + 1, s.wg, s.finished⟩
  | done {s : DispatchState} : 0 < s.draining →
      DStep cap s ⟨s.pending, s.tokens, s.running, s.draining - 1, s.wg - 1, s.finished + 1⟩

/-- Reachability of a scheduler state from the start of a dispatch of
`total` candidates under channel capacity `cap`. -/
inductive DReach (cap total : Nat) : DispatchState → Prop where
  | init : DReach cap total (dispatchInit total)
  | step {s t : DispatchState} : DReach cap total s → DStep cap s t → DReach cap total t

/-! Invariants of the scanner: facts preserved by every successful
`add` traversal. -/

/-- What one `add` traversal preserves: candidate-map keys are never
removed, the `found`/`matched` counters only grow, and the candidate
count stays within the file limit whenever it started within it. -/
def AddInv (cfg : Config) (st st' : fsSortState) : Prop :=
  (∀ k, hasKey st.sorts k = true → hasKey st'.sorts k = true) ∧
  st.statsFound ≤ st'.statsFound ∧
  st.statsMatched ≤ st'.statsMatched ∧
  ((st.sorts.length : Int) ≤ cfg.fileLimit → (st'.sorts.length : Int) ≤ cfg.fileLimit)

lemma AddInv.rfl {cfg : Config} {st : fsSortState} : AddInv cfg st st :=
  ⟨fun _ h => h, Nat.le_refl _, Nat.le_refl _, id⟩

lemma AddInv.comp {cfg : Config} {s1 s2 s3 : fsSortState}
    (h1 : AddInv cfg s1 s2) (h2 : AddInv cfg s2 s3) : AddInv cfg s1 s3 :=
  ⟨fun k hk => h2.1 k (h1.1 k hk), Nat.le_trans h1.2.1 h2.2.1,
   Nat.le_trans h1.2.2.1 h2.2.2.1, fun h => h2.2.2.2 (h1.2.2.2 h)⟩

lemma sortsInsert_hasKey {m : List (String × fileSort)} {j : String}
    (k : String) (v : fileSort) (h : hasKey m j = true) :
    hasKey (sortsInsert m k v) j = true := by
  induction m with
  | nil => simp [hasKey, sortsInsert] at h
  | cons hd tl ih =>
    simp only [hasKey, List.any_cons, Bool.or_eq_true] at h
    rcases h with h | h
    · simp only [sortsInsert]
      split
      · rename_i heq
        simp only [hasKey, List.any_cons, Bool.or_eq_true]
        left
        simp only [decide_eq_true_eq] at h ⊢
        rw [← heq, h]
      · simp [hasKey, List.any_cons, h]
    · simp only [sortsInsert]
      split
      · simp only [hasKey, List.any_cons, Bool.or_eq_true]
        right
        exact h
      · have := ih h
        simp only [hasKey, List.any_cons, Bool.or_eq_true]
        right
        exact this

lemma sortsInsert_length_le (m : List (String × fileSort)) (k : String) (v : fileSort) :
    (sortsInsert m k v).length ≤ m.length + 1 := by
  induction m with
  | nil => simp [sortsInsert]
  | cons hd tl ih =>
    simp only [sortsInsert]
    split
    · simp
    · simpa using Nat.succ_le_succ ih

/-- Joint invariant proof over the mutual recursion of `add` and
`addEntries`. -/
lemma add_inv (cfg : Config) :
    ∀ st path name node st', add cfg st path name node = .ok st' → AddInv cfg st st' := by
  refine add.induct cfg
    (fun st path name node => ∀ st', add cfg st path name node = .ok st' → AddInv cfg st st')
    (fun st path entries => ∀ st', addEntries cfg st path entries = .ok st' → AddInv cfg st st')
    ?_ ?_ ?_ ?_ ?_ ?_ ?_ ?_ ?_ ?_
  · intro t st path name hhid st' h
    rw [add.eq_def, if_pos hhid] at h
    cases h
    exact AddInv.rfl
  · intro t st path name hhid hlim st' h
    rw [add.eq_def, if_neg hhid, if_pos hlim] at h
    cases h
    exact AddInv.rfl
  · intro st path name hhid hlim size hext st' h
    rw [add.eq_def, if_neg hhid, if_neg hlim] at h
    simp only [if_pos hext] at h
    cases h
    refine ⟨fun k hk => sortsInsert_hasKey _ _ hk, by simp, by simp, ?_⟩
    intro hle
    dsimp only
    have hlen := sortsInsert_length_le st.sorts path ⟨st.sorts.length + 1, path, size⟩
    have hcast : ((sortsInsert st.sorts path ⟨st.sorts.length + 1, path, size⟩).length : Int) ≤
        (st.sorts.length : Int) + 1 := by exact_mod_cast hlen
    omega
  · intro st path name hhid hlim size hext st' h
    rw [add.eq_def, if_neg hhid, if_neg hlim] at h
    simp only [if_neg hext] at h
    cases h
    exact ⟨fun _ hk => hk, by simp, by simp, fun hy => hy⟩
  · intro st path name hhid hlim entries hnr st' h
    rw [add.eq_def, if_neg hhid, if_neg hlim] at h
    simp only [if_pos hnr] at h
    cases h
  · intro st path name hhid hlim entries hnr st1 ih st' h
    rw [add.eq_def, if_neg hhid, if_neg hlim] at h
    simp only [if_neg hnr] at h
    have step : AddInv cfg st st1 :=
      ⟨fun _ hk => hk, Nat.le_refl _, Nat.le_refl _, fun hy => hy⟩
    exact AddInv.comp step (ih st' h)
  · intro st path name hhid hlim st' h
    rw [add.eq_def, if_neg hhid, if_neg hlim] at h
    cases h
    exact AddInv.rfl
  · intro st path st' h
    rw [addEntries.eq_def] at h
    cases h
    exact AddInv.rfl
  · intro st path name child rest e herr _ st' h
    rw [addEntries.eq_def] at h
    simp only [herr] at h
    cases h
  · intro st path name child rest stm hok ih1 ih2 st' h
    rw [addEntries.eq_def] at h
    simp only [hok] at h
    exact AddInv.comp (ih1 stm hok) (ih2 st' h)

/-- Once the candidate count has reached the file limit, `add` is a
no-op that reports success, whatever the node is. -/
lemma add_limit_noop (cfg : Config) (st : fsSortState) (path name : String) (node : FSNode)
    (hlim : cfg.fileLimit ≤ (st.sorts.length : Int)) :
    add cfg st path name node = .ok st := by
  by_cases hh : (cfg.skipHidden && hasPrefixStr name ".") = true
  · rw [add.eq_def, if_pos hh]
  · rw [add.eq_def, if_neg hh, if_pos hlim]

/-- The target loop of `scan` preserves `AddInv`. -/
lemma scanTargets_inv (cfg : Config) (w : World) :
    ∀ ts st st', scanTargets cfg w st ts = .ok st' → AddInv cfg st st' := by
  intro ts
  induction ts with
  | nil =>
    intro st st' h
    simp only [scanTargets] at h
    cases h
    exact AddInv.rfl
  | cons t rest ih =>
    intro st st' h
    simp only [scanTargets] at h
    rcases hstat : w.stat t with e | node <;> simp only [hstat] at h
    · cases h
    · rcases hadd : add cfg st t (filepathBase t) node with e | stm <;> simp only [hadd] at h
      · cases h
      · exact AddInv.comp (add_inv cfg st t (filepathBase t) node stm hadd) (ih stm st' h)

/-- When the file limit is already met and every target can be
stat-ed, the whole target loop is a successful no-op. -/
lemma scanTargets_noop (cfg : Config) (w : World) :
    ∀ ts st, (∀ t, t ∈ ts → ∃ node, w.stat t = .ok node) →
      cfg.fileLimit ≤ (st.sorts.length : Int) →
      scanTargets cfg w st ts = .ok st := by
  intro ts
  induction ts with
  | nil => intro st _ _; simp only [scanTargets]
  | cons t rest ih =>
    intro st hstat hlim
    obtain ⟨node, hnode⟩ := hstat t (by simp)
    simp only [scanTargets, hnode, add_limit_noop cfg st t (filepathBase t) node hlim]
    exact ih st (fun u hu => hstat u (by simp [hu])) hlim

/-! Concrete configurations and worlds used by counterexamples and
witnesses. -/

/-- Configuration with `overwrite-if-larger` set (and `overwrite`
clear): targets `/in`, TV dir `/tv`, movie dir `/mv`, extensions
`mkv`, file limit 100. -/
def cfgOIL : Config :=
  ⟨["/in"], "/tv", "/mv", "mkv", 1, 100, true, false, false, false, true, false⟩

/-- World in which `/in/a.mkv` resolves to a series placed at
`x.mkv`, and the destination `/tv/x.mkv` is already occupied by a file
of size 5. -/
def wSmallDest : World :=
  { stat := fun _ => .error "enoent"
  , resolve := fun p => if p = "/in/a.mkv" then .ok ⟨"/in/a.mkv", mediasearchSeries⟩ else .error "unresolved"
  , prettyPath := fun _ => .ok "x.mkv"
  , statSize := fun p => if p = "/tv/x.mkv" then some 5 else none
  , mkdirErr := fun _ => none
  , renameErr := fun _ _ => none
  , watcherErr := none }

/-- Same world, but the file already at `/tv/x.mkv` has size 50. -/
def wLargeDest : World :=
  { wSmallDest with statSize := fun p => if p = "/tv/x.mkv" then some 50 else none }

/-- The candidate for `/in/a.mkv` whose discovery snapshot recorded
size 10. -/
def candA : fileSort := ⟨1, "/in/a.mkv", 10⟩

/-- C1, code bug.  With `overwrite-if-larger` set (and `overwrite` and
dry-run clear), a candidate of size 10 whose destination `/tv/x.mkv`
is occupied by a file of size 5 is refused with the "already exists"
error even though the file being moved is strictly larger — while the
same candidate against an existing destination file of size 50 is
overwritten (mkdir and rename are performed) even though the file being
moved is strictly smaller.  The code's comparison
`newIsLarger := newInfo.Size() > file.info.Size()` tests the size of
the file already at the destination, so the overwrite-if-larger policy
is applied in the reversed direction, contradicting the flag's own help
text "overwrites duplicates if the new file is larger". -/
theorem c1_overwrite_if_larger_reversed :
    sortFile cfgOIL wSmallDest candA =
      (.error "File already exists '/tv/x.mkv' (try setting --overwrite)", []) ∧
    sortFile cfgOIL wLargeDest candA =
      (.ok (), [Effect.mkdirAll "/tv", Effect.rename "/in/a.mkv" "/tv/x.mkv"]) := by
  exact ⟨by decide, by decide⟩

/-- Configuration with recursion disabled, watch off, hidden files kept,
file limit 10, target the directory `/t`. -/
def cfgNoRec : Config :=
  ⟨["/t"], ".", ".", "mkv", 1, 10, false, false, false, false, false, false⟩

/-- World in which the target `/t` stats as a directory holding the
single regular file `a.mkv` of size 100. -/
def wDirTarget : World :=
  { wSmallDest with
    stat := fun p => if p = "/t" then .ok (.dir (.cons "a.mkv" (.file 100) .nil)) else .error "enoent" }

/-- C2, counterexample.  With recursion disabled, a directory given as
an explicit target path is not accepted: the scan of the target `/t`
(a directory) aborts with the recursion-required error instead of
recording `/t` into the directory set, refuting the claim that only
directories below a target abort the pass. -/
theorem c2_counterexample :
    scan cfgNoRec wDirTarget initState =
      .error "Recursive mode (-r) is required to sort directories" := by
  decide

/-- The C2 configuration with recursion enabled and watch mode on
(as watch requires), used by the C3 counterexample's first pass. -/
def cfgWatchRec : Config :=
  ⟨["/t"], ".", ".", "mkv", 1, 10, true, false, false, false, false, true⟩

/-- World for a later pass in which the target `/t` has been replaced
by a non-regular, non-directory entry, so that the pass finds nothing. -/
def wOtherTarget : World :=
  { wSmallDest with stat := fun p => if p = "/t" then .ok .other else .error "enoent" }

/-- C3, counterexample.  A first pass scans `/t` containing `a.mkv`
(one file checked); the state is then reset exactly as at the top of
the sort loop (`resetPass`) and a second pass scans a world where `/t`
no longer lists any file.  The second pass examines zero files, yet its
"No sortable files found" message reports 1 file checked: the `found`
counter is not reset between passes, so the reported count accumulates
over previous passes, refuting the claim. -/
theorem c3_counterexample :
    (scan cfgWatchRec wDirTarget initState >>= fun st =>
      scan cfgWatchRec wOtherTarget (resetPass st)) =
    .error "No sortable files found (1 files checked)" := by
  decide

/-- C9.  The file limit is a soft cap: (i) once the candidate count has
reached the configured limit, `add` succeeds without touching the state
— no candidate is added, nothing is recorded and the scan is neither
aborted nor failed; (ii) a successful `add` never pushes the candidate
count above the limit when it started within it; (iii) every candidate
present before the call is still present afterwards. -/
theorem c9_file_limit_soft_cap :
    (∀ cfg st path name node, cfg.fileLimit ≤ (st.sorts.length : Int) →
      add cfg st path name node = .ok st) ∧
    (∀ cfg st path name node st', add cfg st path name node = .ok st' →
      (st.sorts.length : Int) ≤ cfg.fileLimit → (st'.sorts.length : Int) ≤ cfg.fileLimit) ∧
    (∀ cfg st path name node st', add cfg st path name node = .ok st' →
      ∀ k, hasKey st.sorts k = true → hasKey st'.sorts k = true) := by
  refine ⟨fun cfg st path name node h => add_limit_noop cfg st path name node h, ?_, ?_⟩
  · intro cfg st path name node st' h hle
    exact (add_inv cfg st path name node st' h).2.2.2 hle
  · intro cfg st path name node st' h k hk
    exact (add_inv cfg st path name node st' h).1 k hk

/-- Configuration like `cfgNoRec` but with file limit 1 and recursion
enabled. -/
def cfgLimit1 : Config :=
  ⟨["/in"], "/tv", "/mv", "mkv", 1, 1, true, false, false, false, false, false⟩

/-- Scanner state holding the single candidate `/in/b.mkv`. -/
def st1c : fsSortState := ⟨[("/in/b.mkv", ⟨1, "/in/b.mkv", 7⟩)], [], 1, 1, 0⟩

/-- Witness for C9: with file limit 1, adding `/in/b.mkv` to the fresh
state yields exactly `st1c`; the limit is then met, so a further `add`
is a successful no-op, the candidate count stays at the limit, and the
existing candidate is retained. -/
theorem c9_witness :
    (cfgLimit1.fileLimit ≤ (st1c.sorts.length : Int) ∧
      add cfgLimit1 st1c "/in/c.mkv" "c.mkv" (.file 3) = .ok st1c) ∧
    ((st1c.sorts.length : Int) ≤ cfgLimit1.fileLimit ∧
      hasKey st1c.sorts "/in/b.mkv" = true) := by
  have hadd : add cfgLimit1 st1c "/in/c.mkv" "c.mkv" (.file 3) = .ok st1c :=
    c9_file_limit_soft_cap.1 cfgLimit1 st1c "/in/c.mkv" "c.mkv" (.file 3) (by decide)
  refine ⟨⟨by decide, hadd⟩, ?_, ?_⟩
  · exact c9_file_limit_soft_cap.2.1 cfgLimit1 st1c "/in/c.mkv" "c.mkv" (.file 3) st1c hadd
      (by decide)
  · exact c9_file_limit_soft_cap.2.2 cfgLimit1 st1c "/in/c.mkv" "c.mkv" (.file 3) st1c hadd
      "/in/b.mkv" (by decide)

/-- C2 as amended.  When recursion is disabled, the scanner errors on
every directory it reaches — whether the directory is an explicit
target or lies below one — as long as the directory is not skipped as
hidden and the file limit has not silenced the traversal; the directory
is not recorded and the pass aborts. -/
theorem c2_amended_any_dir_errors (cfg : Config) (st : fsSortState)
    (path name : String) (entries : FSEntries)
    (hrec : cfg.recursive = false)
    (hhid : (cfg.skipHidden && hasPrefixStr name ".") = false)
    (hlim : (st.sorts.length : Int) < cfg.fileLimit) :
    add cfg st path name (.dir entries) =
      .error "Recursive mode (-r) is required to sort directories" := by
  rw [add.eq_def, if_neg (by simp [hhid]), if_neg (by omega)]
  simp [hrec]

/-- Witness for C2's amended statement: the explicit target directory
`/t` of `cfgNoRec` (recursion off, limit 10 not reached) aborts the
scan with the recursion-required error. -/
theorem c2_witness :
    cfgNoRec.recursive = false ∧
    (cfgNoRec.skipHidden && hasPrefixStr "t" ".") = false ∧
    ((initState.sorts.length : Int) < cfgNoRec.fileLimit) ∧
    add cfgNoRec initState "/t" "t" (.dir (.cons "a.mkv" (.file 100) .nil)) =
      .error "Recursive mode (-r) is required to sort directories" :=
  ⟨by decide, by decide, by decide,
    c2_amended_any_dir_errors cfgNoRec initState "/t" "t" (.cons "a.mkv" (.file 100) .nil)
      (by decide) (by decide) (by decide)⟩

/-- C3 as amended.  Only the candidate map and the directory set are
reset at the top of each pass; the statistics counters are never reset,
so they accumulate monotonically across passes and watch-mode messages
report totals over all passes so far. -/
theorem c3_amended_stats_accumulate :
    (∀ st, (resetPass st).statsFound = st.statsFound ∧
      (resetPass st).statsMatched = st.statsMatched ∧
      (resetPass st).statsMoved = st.statsMoved ∧
      (resetPass st).sorts = [] ∧ (resetPass st).dirs = []) ∧
    (∀ cfg w st st', scan cfg w st = .ok st' →
      st.statsFound ≤ st'.statsFound ∧ st.statsMatched ≤ st'.statsMatched) := by
  constructor
  · intro st
    exact ⟨rfl, rfl, rfl, rfl, rfl⟩
  · intro cfg w st st' h
    rw [scan] at h
    rcases hts : scanTargets cfg w st cfg.targets with e | stm <;> simp only [hts] at h
    · cases h
    · have hinv := scanTargets_inv cfg w cfg.targets st stm hts
      split at h
      · cases h
      · cases h
        exact ⟨hinv.2.1, hinv.2.2.1⟩

/-- The scanner state after the first pass of the C3 scenario. -/
def stScan1 : fsSortState := ⟨[("/t/a.mkv", ⟨1, "/t/a.mkv", 100⟩)], ["/t"], 1, 1, 0⟩

/-- Witness for C3's amended statement: the first C3 pass produces
`stScan1`; resetting preserves its counters while clearing the maps,
and the scan is counter-monotone at this concrete input. -/
theorem c3_witness :
    ((resetPass stScan1).statsFound = stScan1.statsFound ∧
      (resetPass stScan1).sorts = []) ∧
    (scan cfgWatchRec wDirTarget initState = .ok stScan1 ∧
      initState.statsFound ≤ stScan1.statsFound) := by
  have hscan : scan cfgWatchRec wDirTarget initState = .ok stScan1 := by decide
  refine ⟨⟨(c3_amended_stats_accumulate.1 stScan1).1,
           (c3_amended_stats_accumulate.1 stScan1).2.2.2.1⟩, hscan, ?_⟩
  exact (c3_amended_stats_accumulate.2 cfgWatchRec wDirTarget initState stScan1 hscan).1

/-- Configuration that sets both `overwrite` and
`overwrite-if-larger`. -/
def cfgBothOW : Config :=
  ⟨["/in"], "/tv", "/mv", "mkv", 1, 100, true, false, false, true, true, false⟩

/-- C4.  A configuration that sets both overwrite flags, or that sets
watch without recursive, is rejected by `FileSystemSort` with one of
the two descriptive validation errors; the outcome carries no
filesystem effects and is independent of the world, so no stat,
directory listing, candidate creation or mutation can have occurred
before the failure. -/
theorem c4_validation_before_scanning (c : Config) (w w2 : World) (fuel : Nat)
    (hbad : ((c.overwrite && c.overwriteIfLarger) || (c.watch && !c.recursive)) = true) :
    ((FileSystemSort c w fuel =
        (.error "Recursive mode is required to watch directories", []) ∨
      FileSystemSort c w fuel =
        (.error "Overwrite is already specified, overwrite-if-larger is redundant", [])) ∧
      FileSystemSort c w fuel = FileSystemSort c w2 fuel) := by
  have hdw : ((defaultDirs c).watch && !(defaultDirs c).recursive) =
      (c.watch && !c.recursive) := rfl
  have hdo : ((defaultDirs c).overwrite && (defaultDirs c).overwriteIfLarger) =
      (c.overwrite && c.overwriteIfLarger) := rfl
  by_cases h1 : (c.watch && !c.recursive) = true
  · have e1 : FileSystemSort c w fuel =
        (.error "Recursive mode is required to watch directories", []) := by
      simp only [FileSystemSort]
      rw [if_pos (by rw [hdw]; exact h1)]
    have e2 : FileSystemSort c w2 fuel =
        (.error "Recursive mode is required to watch directories", []) := by
      simp only [FileSystemSort]
      rw [if_pos (by rw [hdw]; exact h1)]
    exact ⟨Or.inl e1, by rw [e1, e2]⟩
  · have h2 : (c.overwrite && c.overwriteIfLarger) = true := by
      have hsplit : (c.overwrite && c.overwriteIfLarger) = true ∨
          (c.watch && !c.recursive) = true := by simpa using hbad
      rcases hsplit with h | h
      · exact h
      · exact absurd h h1
    have e1 : FileSystemSort c w fuel =
        (.error "Overwrite is already specified, overwrite-if-larger is redundant", []) := by
      simp only [FileSystemSort]
      rw [if_neg (by rw [hdw]; exact h1), if_pos (by rw [hdo]; exact h2)]
    have e2 : FileSystemSort c w2 fuel =
        (.error "Overwrite is already specified, overwrite-if-larger is redundant", []) := by
      simp only [FileSystemSort]
      rw [if_neg (by rw [hdw]; exact h1), if_pos (by rw [hdo]; exact h2)]
    exact ⟨Or.inr e1, by rw [e1, e2]⟩

/-- Witness for C4: the both-overwrite configuration is rejected with
the overwrite-redundancy error under two different worlds. -/
theorem c4_witness :
    ((cfgBothOW.overwrite && cfgBothOW.overwriteIfLarger) ||
      (cfgBothOW.watch && !cfgBothOW.recursive)) = true ∧
    ((FileSystemSort cfgBothOW wSmallDest 1 =
        (.error "Recursive mode is required to watch directories", []) ∨
      FileSystemSort cfgBothOW wSmallDest 1 =
        (.error "Overwrite is already specified, overwrite-if-larger is redundant", [])) ∧
      FileSystemSort cfgBothOW wSmallDest 1 = FileSystemSort cfgBothOW wOtherTarget 1) :=
  ⟨by decide, c4_validation_before_scanning cfgBothOW wSmallDest wOtherTarget 1 (by decide)⟩

/-- C5.  With dry-run set, `sortFile` performs no filesystem mutation
at all — its effect trace is empty in every case, including when a file
already exists at the destination — and whenever the resolver, the path
formatter and the media-type switch succeed it returns success
immediately after the destination is computed and logged. -/
theorem c5_dry_run_no_mutation (cfg : Config) (w : World) (file : fileSort)
    (hdry : cfg.dryRun = true) :
    (sortFile cfg w file).2 = [] ∧
    (∀ r rel b, w.resolve file.path = .ok r → w.prettyPath r = .ok rel →
      baseDirOf cfg r.mtype = some b → (sortFile cfg w file).1 = .ok ()) := by
  constructor
  · rcases hres : w.resolve file.path with e | r
    · simp [sortFile, hres]
    · rcases hfmt : w.prettyPath r with e | rel
      · simp [sortFile, hres, hfmt]
      · rcases hbase : baseDirOf cfg r.mtype with _ | b
        · simp [sortFile, hres, hfmt, hbase]
        · simp [sortFile, hres, hfmt, hbase, hdry]
  · intro r rel b hres hfmt hbase
    simp [sortFile, hres, hfmt, hbase, hdry]

/-- The overwrite-if-larger configuration with dry-run switched on. -/
def cfgDry : Config := { cfgOIL with dryRun := true }

/-- Witness for C5: in the occupied-destination world, the dry-run
configuration produces no effects and reports success. -/
theorem c5_witness :
    cfgDry.dryRun = true ∧
    (sortFile cfgDry wSmallDest candA).2 = [] ∧
    (sortFile cfgDry wSmallDest candA).1 = .ok () := by
  have h := c5_dry_run_no_mutation cfgDry wSmallDest candA (by decide)
  exact ⟨by decide, h.1,
    h.2 ⟨"/in/a.mkv", mediasearchSeries⟩ "x.mkv" "/tv" (by decide) (by decide) (by decide)⟩

/-- The failure log of the sequentialised dispatch loop is exactly the
per-candidate failures, each tagged with its id, the total count and
its path. -/
lemma runSorts_logs (cfg : Config) (w : World) (total : Nat) :
    ∀ l, (runSorts cfg w total l).1 =
      l.filterMap (fun pc =>
        match (sortFile cfg w pc.2).1 with
        | .error e => some ⟨pc.2.id, total, pc.2.path, e⟩
        | .ok _ => none) := by
  intro l
  induction l with
  | nil => simp [runSorts]
  | cons hd tl ih =>
    rcases hd with ⟨p, file⟩
    rcases hr : (sortFile cfg w file).1 with e | u <;>
      simp [runSorts, hr, ih, List.filterMap_cons]

/-- C6.  The dispatch phase always returns success, whatever the
per-candidate outcomes: every candidate is processed, and the failure
log contains exactly one entry — carrying the candidate id, the total
candidate count, the path and the error text — for each candidate whose
resolve-and-place failed, so no per-candidate error aborts the others
or the overall call. -/
theorem c6_dispatch_always_succeeds (cfg : Config) (w : World) (st : fsSortState) :
    (sortAllFiles cfg w st).1 = .ok () ∧
    (sortAllFiles cfg w st).2.1 =
      st.sorts.filterMap (fun pc =>
        match (sortFile cfg w pc.2).1 with
        | .error e => some ⟨pc.2.id, st.sorts.length, pc.2.path, e⟩
        | .ok _ => none) :=
  ⟨rfl, runSorts_logs cfg w st.sorts.length st.sorts⟩

/-- Inductive invariant of the dispatch scheduler: the channel never
holds more than `cap` tokens, every slot-holding goroutine is matched
by a token, the WaitGroup counts exactly the goroutines that have not
yet signalled, and the candidates are partitioned among the phases. -/
lemma dreach_inv {cap total : Nat} {s : DispatchState} (h : DReach cap total s) :
    s.tokens ≤ cap ∧ s.running ≤ s.tokens ∧ s.wg = s.running + s.draining ∧
    s.pending + s.running + s.draining + s.finished = total := by
  induction h with
  | init => simp [dispatchInit]
  | step hr hs ih =>
    cases hs with
    | spawn h1 h2 => dsimp only at ih ⊢; omega
    | release h1 => dsimp only at ih ⊢; omega
    | done h1 => dsimp only at ih ⊢; omega

/-- C7.  In every reachable state of the dispatch of `total`
candidates under admission-gate capacity `cap`, at most `cap`
resolve-and-place tasks hold a slot (are in flight), and whenever the
spawning loop has exhausted the candidates and the completion barrier
lets the dispatcher return (`wg = 0`), every candidate's task has
finished. -/
theorem c7_concurrency_ceiling (cap total : Nat) (s : DispatchState)
    (h : DReach cap total s) :
    s.running ≤ cap ∧ (s.pending = 0 → s.wg = 0 → s.finished = total) := by
  have hinv := dreach_inv h
  refine ⟨by omega, fun hp hw => by omega⟩

/-- Witness for C7: a complete one-candidate dispatch under capacity 1
reaches the final state by spawn, release, done; the theorem applied to
that state bounds the in-flight count and certifies completion. -/
theorem c7_witness :
    DispatchState.running ⟨0, 0, 0, 0, 0, 1⟩ ≤ 1 ∧
    DispatchState.finished ⟨0, 0, 0, 0, 0, 1⟩ = 1 := by
  have h0 : DReach 1 1 (dispatchInit 1) := DReach.init
  have h1 : DReach 1 1 ⟨0, 1, 1, 0, 1, 0⟩ :=
    DReach.step h0 (DStep.spawn (by decide) (by decide))
  have h2 : DReach 1 1 ⟨0, 0, 0, 1, 1, 0⟩ :=
    DReach.step h1 (DStep.release (by decide))
  have h3 : DReach 1 1 ⟨0, 0, 0, 0, 0, 1⟩ :=
    DReach.step h2 (DStep.done (by decide))
  have h := c7_concurrency_ceiling 1 1 ⟨0, 0, 0, 0, 0, 1⟩ h3
  exact ⟨h.1, h.2 rfl rfl⟩

/-- C8.  After a successful move of the main file, when a `.srt` file
with the source's base name exists, `sortFile` attempts to move it to
the destination base name and succeeds overall — with no hypothesis on
the outcome of that subtitle rename, so a subtitle-move failure is
silently swallowed; in particular the dispatch loop logs no failure for
the candidate. -/
theorem c8_subtitle_best_effort (cfg : Config) (w : World) (file : fileSort)
    (r : Result) (rel b : String) (ssz : Int)
    (hres : w.resolve file.path = .ok r)
    (hfmt : w.prettyPath r = .ok rel)
    (hbase : baseDirOf cfg r.mtype = some b)
    (hdry : cfg.dryRun = false)
    (hne : ¬ r.path = filepathJoin b rel)
    (how : overwriteOK cfg file.size (w.statSize (filepathJoin b rel)) = true)
    (hmk : w.mkdirErr (filepathDir (filepathJoin b rel)) = none)
    (hmv : w.renameErr r.path (filepathJoin b rel) = none)
    (hsub : w.statSize (subsOf r.path) = some ssz) :
    sortFile cfg w file =
      (.ok (), [Effect.mkdirAll (filepathDir (filepathJoin b rel)),
        Effect.rename r.path (filepathJoin b rel),
        Effect.rename (subsOf r.path) (subsOf (filepathJoin b rel))]) ∧
    (∀ total, (runSorts cfg w total [(file.path, file)]).1 = []) := by
  have hmain : sortFile cfg w file =
      (.ok (), [Effect.mkdirAll (filepathDir (filepathJoin b rel)),
        Effect.rename r.path (filepathJoin b rel),
        Effect.rename (subsOf r.path) (subsOf (filepathJoin b rel))]) := by
    simp only [sortFile, hres, hfmt, hbase]
    rw [if_neg (by simp [hdry]), if_neg hne, if_neg (by simp [how])]
    simp only [hmk, hmv, hsub]
  refine ⟨hmain, fun total => by simp [runSorts, hmain]⟩

/-- World in which the move of `/in/a.mkv` succeeds, the companion
subtitle `/in/a.srt` exists, and renaming that subtitle fails. -/
def wSubFail : World :=
  { wSmallDest with
    statSize := fun p => if p = "/in/a.srt" then some 1 else none,
    renameErr := fun src _ => if src = "/in/a.srt" then some "permission denied" else none }

/-- Witness for C8: the subtitle rename fails in `wSubFail`, yet the
candidate succeeds, all three mutating calls are attempted in order,
and the dispatch loop logs nothing for the candidate. -/
theorem c8_witness :
    wSubFail.renameErr "/in/a.srt" "/tv/x.srt" = some "permission denied" ∧
    sortFile cfgOIL wSubFail candA =
      (.ok (), [Effect.mkdirAll "/tv", Effect.rename "/in/a.mkv" "/tv/x.mkv",
        Effect.rename "/in/a.srt" "/tv/x.srt"]) ∧
    (runSorts cfgOIL wSubFail 1 [("/in/a.mkv", candA)]).1 = [] := by
  have h := c8_subtitle_best_effort cfgOIL wSubFail candA
    ⟨"/in/a.mkv", mediasearchSeries⟩ "x.mkv" "/tv" 1
    (by decide) (by decide) (by decide) (by decide) (by decide) (by decide)
    (by decide) (by decide) (by decide)
  refine ⟨by decide, ?_, h.2 1⟩
  rw [h.1]
  decide

/-- C10.  With a zero file limit (the zero value of the unset option),
in a validated configuration whose targets all stat successfully, the
limit check silences the scanner before anything is examined: `add` is
a universal no-op (no candidate added, no directory recorded, no
counter bumped), and `FileSystemSort` fails with the "No sortable files
found (0 files checked)" error, with no filesystem mutation. -/
theorem c10_zero_file_limit (c : Config) (w : World) (fuel : Nat)
    (h0 : c.fileLimit = 0)
    (hw : (c.watch && !c.recursive) = false)
    (ho : (c.overwrite && c.overwriteIfLarger) = false)
    (hstat : ∀ t, t ∈ c.targets → ∃ node, w.stat t = .ok node) :
    FileSystemSort c w (fuel + 1) =
      (.error "No sortable files found (0 files checked)", []) ∧
    (∀ st path name node, add c st path name node = .ok st) := by
  have hdw : ((defaultDirs c).watch && !(defaultDirs c).recursive) =
      (c.watch && !c.recursive) := rfl
  have hdo : ((defaultDirs c).overwrite && (defaultDirs c).overwriteIfLarger) =
      (c.overwrite && c.overwriteIfLarger) := rfl
  have hfl : (defaultDirs c).fileLimit = c.fileLimit := rfl
  have hlim0 : (defaultDirs c).fileLimit ≤ ((initState : fsSortState).sorts.length : Int) := by
    rw [hfl, h0]
    simp [initState]
  have htgts : (defaultDirs c).targets = c.targets := rfl
  have hT : scanTargets (defaultDirs c) w initState ((defaultDirs c).targets) = .ok initState := by
    rw [htgts]
    exact scanTargets_noop (defaultDirs c) w c.targets initState hstat hlim0
  have hscan : scan (defaultDirs c) w initState =
      .error "No sortable files found (0 files checked)" := by
    rw [scan]
    simp only [hT]
    rw [if_pos (by simp [initState])]
    decide
  constructor
  · simp only [FileSystemSort]
    rw [if_neg (by rw [hdw]; simp [hw]), if_neg (by rw [hdo]; simp [ho])]
    have hri : resetPass initState = initState := rfl
    simp only [sortLoop, hri, hscan]
  · intro st path name node
    apply add_limit_noop
    rw [h0]
    exact Int.natCast_nonneg _

/-- Configuration whose file limit was left at its zero value. -/
def cfgLimit0 : Config :=
  ⟨["/t"], ".", ".", "mkv", 1, 0, true, false, false, false, false, false⟩

/-- Witness for C10: with file limit 0 over the `/t` tree that does
contain a matching file, the sorter fails with the zero-count message
and `add` leaves a sample state untouched. -/
theorem c10_witness :
    (cfgLimit0.fileLimit = 0 ∧
      FileSystemSort cfgLimit0 wDirTarget 1 =
        (.error "No sortable files found (0 files checked)", [])) ∧
    add cfgLimit0 stScan1 "/x" "x" .other = .ok stScan1 := by
  have h := c10_zero_file_limit cfgLimit0 wDirTarget 0 (by decide) (by decide) (by decide)
    (fun t ht => by
      simp only [cfgLimit0, List.mem_singleton] at ht
      subst ht
      exact ⟨.dir (.cons "a.mkv" (.file 100) .nil), by decide⟩)
  exact ⟨⟨by decide, h.1⟩, h.2 stScan1 "/x" "x" .other⟩

end MediaSort
